import Mathlib

/-!
Shallow embedding of the transport layer of the Quantum_net repository
(file `quantumnet/components/layers/transport_layer.py`).

The mutable Python objects are embedded as an explicit state record
`TransportState` holding the per-host memories, the per-edge EPR pools and
the `transmitted_qubits` ledger of the `TransportLayer` object.  The route
provider (`network_layer.short_route_valid`, not under `src/`) is injected
as a parameter: an `Option (List Nat)` for the single call made by
`teleportation_protocol`, and a call-indexed `Nat → Option (List Nat)`
for the repeated calls made by `request_transmission`.  The uniform random
draw of `teleportation_protocol` is injected as a rational parameter.
Fidelities (Python floats) are embedded as rationals.
-/

namespace QuantumNet

/-- A qubit, reduced to the scalar fidelity the transport layer reads
through `get_current_fidelity`. -/
structure Qubit where
  fidelity : ℚ
deriving DecidableEq, Inhabited

/-- An EPR pair, reduced to the scalar fidelity the transport layer reads
through `get_current_fidelity`. -/
structure Epr where
  fidelity : ℚ
deriving DecidableEq, Inhabited

/-- One entry of the `transmitted_qubits` ledger: either the dictionary
appended by `request_transmission` or the one appended by
`teleportation_protocol`. -/
inductive Record where
  | transmission (route : List Nat) (alice_id bob_id : Nat)
  | teleport (alice_id bob_id : Nat) (route : List Nat)
      (fidelity_alice fidelity_bob fidelity_route success_prob : ℚ)
      (qubit_alice qubit_bob : Qubit) (success : Bool)
deriving DecidableEq

/-- The mutable state touched by the transport layer: host memories
(Python lists addressed through `network.get_host`), per-edge EPR pools
(addressed through the network object) and the `transmitted_qubits`
ledger field of `TransportLayer`. -/
structure TransportState where
  hosts : Nat → List Qubit
  eprs : Nat × Nat → List Epr
  transmitted_qubits : List Record

/-- The consecutive node pairs `(route[i], route[i+1])` of a route, the
pairs both loops `for i in range(len(route) - 1)` iterate over. -/
def hops (route : List Nat) : List (Nat × Nat) :=
  route.zip route.tail

/-- Modelled from the spec: the EPR Resource Accessor read operation
`pairs_on_edge(node_a, node_b) -> sequence of EPR Pair` (read,
non-destructive).  The `Network.get_eprs_from_edge` method called by the
transport layer is not under `src/`. -/
def get_eprs_from_edge (s : TransportState) (e : Nat × Nat) : List Epr :=
  s.eprs e

/-- Modelled from the spec: the EPR Resource Accessor write operation
`consume_pair(node_a, node_b)`, which removes one pair from the pool of
the edge and fails when the pool is empty (the failure is modelled as
leaving the empty pool unchanged).  The `Network.remove_epr` method called
by the transport layer is not under `src/`. -/
def remove_epr (pools : Nat × Nat → List Epr) (e : Nat × Nat) :
    Nat × Nat → List Epr :=
  Function.update pools e (pools e).tail

/-- The loop `for i in range(len(route) - 1): self._network.remove_epr(...)`
at the end of `teleportation_protocol`, removing one pair per hop. -/
def removeEprPools : (Nat × Nat → List Epr) → List (Nat × Nat) →
    Nat × Nat → List Epr
  | pools, [] => pools
  | pools, e :: es => removeEprPools (remove_epr pools e) es

/-- The flat fidelity list built by `teleportation_protocol`:
`fidelities.extend([epr.get_current_fidelity() for epr in epr_pairs])`
over every hop of the route. -/
def routeFidelities (s : TransportState) (route : List Nat) : List ℚ :=
  (hops route).flatMap fun e => (get_eprs_from_edge s e).map Epr.fidelity

/-- `memory.append(q)` on the memory of host `hid`. -/
def pushBack (hosts : Nat → List Qubit) (hid : Nat) (q : Qubit) :
    Nat → List Qubit :=
  Function.update hosts hid (hosts hid ++ [q])

/-- `TransportLayer.teleportation_protocol(alice_id, bob_id)`.  `route?` is
the value returned by the single `short_route_valid` call and `draw` is the
value returned by `uniform(0, 1)`.  Returns the boolean result together
with the state after the call. -/
def teleportation_protocol (s : TransportState) (route? : Option (List Nat))
    (draw : ℚ) (alice_id bob_id : Nat) : Bool × TransportState :=
  match route? with
  | none => (false, s)
  | some route =>
    if (s.hosts alice_id).length < 1 ∨ (s.hosts bob_id).length < 1 then
      (false, s)
    else
      let qubit_alice := (s.hosts alice_id).headI
      let hosts1 := Function.update s.hosts alice_id (s.hosts alice_id).tail
      let qubit_bob := (hosts1 bob_id).getLastI
      let hosts2 := Function.update hosts1 bob_id (hosts1 bob_id).dropLast
      let s1 : TransportState := { s with hosts := hosts2 }
      let f_alice := qubit_alice.fidelity
      let f_bob := qubit_bob.fidelity
      let fidelities := routeFidelities s1 route
      if fidelities = [] then
        (false, s1)
      else
        let f_route := fidelities.sum / (fidelities.length : ℚ)
        let success_prob := f_alice * f_bob * f_route +
          (1 - f_alice) * (1 - f_bob) * (1 - f_route)
        let outcome : Bool := decide (draw ≤ success_prob)
        let hosts3 :=
          if outcome then
            pushBack hosts2 bob_id qubit_alice
          else
            pushBack (pushBack hosts2 alice_id qubit_alice) bob_id qubit_bob
        let qubit_info := Record.teleport alice_id bob_id route f_alice f_bob
          f_route success_prob qubit_alice qubit_bob outcome
        (outcome,
          { hosts := hosts3,
            eprs := removeEprPools s1.eprs (hops route),
            transmitted_qubits := s1.transmitted_qubits ++ [qubit_info] })

/-- Result of one run of the attempt body of `request_transmission`:
whether the attempt succeeded, the routes collected by the route loop, the
provider call counter after the attempt and the number of
`get_eprs_from_edge` reads performed by the availability check. -/
structure AttemptResult where
  success : Bool
  routes : List (List Nat)
  calls : Nat
  reads : Nat
deriving DecidableEq

/-- Result of the retry loop of `request_transmission`: the final
`success` flag, the routes of the successful attempt (empty when none
succeeded), the final value of the Python `attempts` counter, the total
number of provider calls and the total number of pool reads. -/
structure LoopResult where
  success : Bool
  routes : List (List Nat)
  attempts : Nat
  calls : Nat
  reads : Nat
deriving DecidableEq

/-- Observable outcome of `request_transmission`: the returned boolean,
the state after the call, the final `attempts` counter, the total number
of route-provider calls and the total number of EPR-pool reads. -/
structure TransmissionResult where
  success : Bool
  state : TransportState
  attempts : Nat
  providerCalls : Nat
  poolReads : Nat

/-- The route-collection loop `for _ in range(num_qubits)` of one attempt
of `request_transmission`: request one route per qubit from the provider,
breaking at the first `None`.  `calls` is the running index of provider
calls; the collected routes and the updated index are returned. -/
def collectRoutes (provider : Nat → Option (List Nat)) :
    Nat → Nat → List (List Nat) × Nat
  | calls, 0 => ([], calls)
  | calls, n + 1 =>
    match provider calls with
    | none => ([], calls + 1)
    | some route =>
      let rest := collectRoutes provider (calls + 1) n
      (route :: rest.1, rest.2)

/-- The per-route hop check of `request_transmission`: walk the hops of
one route, reading each pool once, and stop at the first hop with fewer
than one available pair.  Returns the verdict and the number of pool
reads performed. -/
def checkHops (s : TransportState) : List (Nat × Nat) → Bool × Nat
  | [] => (true, 0)
  | e :: es =>
    if 1 ≤ (get_eprs_from_edge s e).length then
      let rest := checkHops s es
      (rest.1, rest.2 + 1)
    else
      (false, 1)

/-- The availability check of `request_transmission` over all collected
routes, aborting at the first failing route. -/
def checkRoutes (s : TransportState) : List (List Nat) → Bool × Nat
  | [] => (true, 0)
  | r :: rs =>
    let hc := checkHops s (hops r)
    if hc.1 then
      let rest := checkRoutes s rs
      (rest.1, hc.2 + rest.2)
    else
      (false, hc.2)

/-- One iteration of the retry loop of `request_transmission`: collect one
route per qubit, and when all `num_qubits` routes were obtained run the
EPR availability check. -/
def attemptOnce (s : TransportState) (provider : Nat → Option (List Nat))
    (calls num_qubits : Nat) : AttemptResult :=
  let cr := collectRoutes provider calls num_qubits
  if cr.1.length = num_qubits then
    let ck := checkRoutes s cr.1
    ⟨ck.1, cr.1, cr.2, ck.2⟩
  else
    ⟨false, cr.1, cr.2, 0⟩

/-- The loop `while attempts < max_attempts and not success` of
`request_transmission`, with `rem = max_attempts - attempts` iterations
left.  A failed attempt increments `attempts`; a successful one exits the
loop with `attempts` unchanged, as in the source. -/
def transmissionLoop (s : TransportState)
    (provider : Nat → Option (List Nat)) (num_qubits : Nat) :
    Nat → Nat → Nat → Nat → LoopResult
  | 0, calls, reads, attempts => ⟨false, [], attempts, calls, reads⟩
  | rem + 1, calls, reads, attempts =>
    let ar := attemptOnce s provider calls num_qubits
    if ar.success then
      ⟨true, ar.routes, attempts, ar.calls, reads + ar.reads⟩
    else
      transmissionLoop s provider num_qubits rem ar.calls
        (reads + ar.reads) (attempts + 1)

/-- `TransportLayer.request_transmission(alice_id, bob_id, num_qubits)`.
`provider` is the injected `short_route_valid` collaborator, indexed by
the number of calls made so far; `max_attempts` is the literal 2 of the
source.  On success one `Record.transmission` per route is appended to
the ledger; on failure the state is returned untouched. -/
def request_transmission (s : TransportState)
    (provider : Nat → Option (List Nat)) (alice_id bob_id num_qubits : Nat) :
    TransmissionResult :=
  let lr := transmissionLoop s provider num_qubits 2 0 0 0
  if lr.success then
    ⟨true,
      { s with transmitted_qubits := s.transmitted_qubits ++
          lr.routes.map fun r => Record.transmission r alice_id bob_id },
      lr.attempts, lr.calls, lr.reads⟩
  else
    ⟨false, s, lr.attempts, lr.calls, lr.reads⟩

/-- `TransportLayer.get_transmitted_qubits`. -/
def get_transmitted_qubits (s : TransportState) : List Record :=
  s.transmitted_qubits

/-- `TransportLayer.get_teleported_qubits`. -/
def get_teleported_qubits (s : TransportState) : List Record :=
  s.transmitted_qubits

/-! Concrete states used by counterexamples, failing-input evaluations and
witnesses. -/

/-- A state with one qubit in the memory of host 0, one qubit in the
memory of host 1, and every EPR pool empty. -/
def s0 : TransportState where
  hosts := fun n => if n = 0 then [⟨0⟩] else if n = 1 then [⟨0⟩] else []
  eprs := fun _ => []
  transmitted_qubits := []

/-- A state with one qubit in each of the memories of hosts 0 and 1, one
EPR pair on edge `(0, 1)` and no pair on any other edge (in particular
none on edge `(1, 2)`). -/
def s4 : TransportState where
  hosts := fun n => if n = 0 then [⟨0⟩] else if n = 1 then [⟨0⟩] else []
  eprs := fun e => if e = (0, 1) then [⟨0⟩] else []
  transmitted_qubits := []

/-- A route provider that never finds a route. -/
def noRoute : Nat → Option (List Nat) := fun _ => none

/-- A route provider that finds the route `[0, 1]` on its first two calls
and no route from the third call on. -/
def twoThenFail : Nat → Option (List Nat) :=
  fun k => if k < 2 then some [0, 1] else none

/-- A route provider that always finds the route `[0, 1]`. -/
def alwaysRoute : Nat → Option (List Nat) := fun _ => some [0, 1]

/-- A state with empty memories, one EPR pair on edge `(0, 1)` and no
pair elsewhere. -/
def s7 : TransportState where
  hosts := fun _ => []
  eprs := fun e => if e = (0, 1) then [⟨0⟩] else []
  transmitted_qubits := []

/-! Helper lemmas about the EPR release loop and `teleportation_protocol`. -/

theorem routeFidelities_hosts_irrel (s : TransportState)
    (h : Nat → List Qubit) (route : List Nat) :
    routeFidelities { s with hosts := h } route = routeFidelities s route :=
  rfl

theorem removeEprPools_not_mem :
    ∀ (es : List (Nat × Nat)) (pools : Nat × Nat → List Epr) (e : Nat × Nat),
      e ∉ es → removeEprPools pools es e = pools e := by
  intro es
  induction es with
  | nil =>
    intro pools e _
    rfl
  | cons x xs ih =>
    intro pools e h
    rw [List.mem_cons, not_or] at h
    rw [removeEprPools, ih _ _ h.2]
    simp [remove_epr, Function.update_noteq h.1]

theorem removeEprPools_mem :
    ∀ (es : List (Nat × Nat)) (pools : Nat × Nat → List Epr) (e : Nat × Nat),
      es.Nodup → e ∈ es → removeEprPools pools es e = (pools e).tail := by
  intro es
  induction es with
  | nil =>
    intro pools e _ h
    cases h
  | cons x xs ih =>
    intro pools e hnd hmem
    rw [removeEprPools]
    rcases List.mem_cons.mp hmem with rfl | hx
    · have hxs : e ∉ xs := (List.nodup_cons.mp hnd).1
      rw [removeEprPools_not_mem xs _ e hxs]
      simp [remove_epr, Function.update_same]
    · have hne : e ≠ x := by
        rintro rfl
        exact (List.nodup_cons.mp hnd).1 hx
      rw [ih _ e (List.nodup_cons.mp hnd).2 hx]
      simp [remove_epr, Function.update_noteq hne]

/-- Characterization of a `teleportation_protocol` call that passes the
route, memory and fidelity preconditions: the returned boolean is the
inclusive comparison of the draw against the success probability, the
final memories follow the success or failure branch, one EPR pair is
consumed per hop and one teleport record is appended to the ledger. -/
theorem teleportation_protocol_run (s : TransportState) (route : List Nat)
    (draw : ℚ) (a b : Nat) (hab : a ≠ b) (ha : s.hosts a ≠ [])
    (hb : s.hosts b ≠ []) (hf : routeFidelities s route ≠ []) :
    teleportation_protocol s (some route) draw a b =
      (decide (draw ≤
        (s.hosts a).headI.fidelity * (s.hosts b).getLastI.fidelity *
            ((routeFidelities s route).sum / ((routeFidelities s route).length : ℚ)) +
          (1 - (s.hosts a).headI.fidelity) * (1 - (s.hosts b).getLastI.fidelity) *
            (1 - (routeFidelities s route).sum / ((routeFidelities s route).length : ℚ))),
       { hosts :=
           if draw ≤
             (s.hosts a).headI.fidelity * (s.hosts b).getLastI.fidelity *
                 ((routeFidelities s route).sum /
                   ((routeFidelities s route).length : ℚ)) +
               (1 - (s.hosts a).headI.fidelity) *
                 (1 - (s.hosts b).getLastI.fidelity) *
                 (1 - (routeFidelities s route).sum /
                   ((routeFidelities s route).length : ℚ)) then
             pushBack (Function.update (Function.update s.hosts a (s.hosts a).tail)
               b (s.hosts b).dropLast) b (s.hosts a).headI
           else
             pushBack (pushBack
               (Function.update (Function.update s.hosts a (s.hosts a).tail)
                 b (s.hosts b).dropLast) a (s.hosts a).headI) b (s.hosts b).getLastI,
         eprs := removeEprPools s.eprs (hops route),
         transmitted_qubits := s.transmitted_qubits ++
           [Record.teleport a b route (s.hosts a).headI.fidelity
             (s.hosts b).getLastI.fidelity
             ((routeFidelities s route).sum / ((routeFidelities s route).length : ℚ))
             ((s.hosts a).headI.fidelity * (s.hosts b).getLastI.fidelity *
                 ((routeFidelities s route).sum /
                   ((routeFidelities s route).length : ℚ)) +
               (1 - (s.hosts a).headI.fidelity) *
                 (1 - (s.hosts b).getLastI.fidelity) *
                 (1 - (routeFidelities s route).sum /
                   ((routeFidelities s route).length : ℚ)))
             (s.hosts a).headI (s.hosts b).getLastI
             (decide (draw ≤
               (s.hosts a).headI.fidelity * (s.hosts b).getLastI.fidelity *
                   ((routeFidelities s route).sum /
                     ((routeFidelities s route).length : ℚ)) +
                 (1 - (s.hosts a).headI.fidelity) *
                   (1 - (s.hosts b).getLastI.fidelity) *
                   (1 - (routeFidelities s route).sum /
                     ((routeFidelities s route).length : ℚ))))] }) := by
  have hga : ¬((s.hosts a).length < 1 ∨ (s.hosts b).length < 1) := by
    simp only [Nat.lt_one_iff, List.length_eq_zero]
    rw [not_or]
    exact ⟨ha, hb⟩
  have hba : b ≠ a := Ne.symm hab
  unfold teleportation_protocol
  dsimp only
  rw [if_neg hga]
  simp only [Function.update_noteq hba, routeFidelities_hosts_irrel]
  rw [if_neg hf]
  simp only [decide_eq_true_eq]

/-! Helper lemmas about the retry loop of `request_transmission`. -/

theorem attemptOnce_success_routes (s : TransportState)
    (provider : Nat → Option (List Nat)) (calls n : Nat)
    (h : (attemptOnce s provider calls n).success = true) :
    (attemptOnce s provider calls n).routes.length = n := by
  by_cases hlen : (collectRoutes provider calls n).1.length = n
  · simp [attemptOnce, hlen]
  · simp [attemptOnce, hlen] at h

theorem transmissionLoop_attempts_le (s : TransportState)
    (provider : Nat → Option (List Nat)) (n : Nat) :
    ∀ rem calls reads att,
      (transmissionLoop s provider n rem calls reads att).attempts ≤ att + rem ∧
      ((transmissionLoop s provider n rem calls reads att).success = true →
        (transmissionLoop s provider n rem calls reads att).attempts < att + rem) := by
  intro rem
  induction rem with
  | zero =>
    intro calls reads att
    refine ⟨by simp [transmissionLoop], ?_⟩
    intro h
    simp [transmissionLoop] at h
  | succ m ih =>
    intro calls reads att
    by_cases h : (attemptOnce s provider calls n).success = true
    · constructor
      · simp [transmissionLoop, h]
      · intro _
        simp [transmissionLoop, h]
    · have hb : (attemptOnce s provider calls n).success = false := by
        simpa using h
      have hih := ih (attemptOnce s provider calls n).calls
        (reads + (attemptOnce s provider calls n).reads) (att + 1)
      constructor
      · simp only [transmissionLoop, hb, Bool.false_eq_true, if_false]
        omega
      · intro hs
        simp only [transmissionLoop, hb, Bool.false_eq_true, if_false] at hs ⊢
        have := hih.2 hs
        omega

theorem transmissionLoop_success_routes (s : TransportState)
    (provider : Nat → Option (List Nat)) (n : Nat) :
    ∀ rem calls reads att,
      (transmissionLoop s provider n rem calls reads att).success = true →
      (transmissionLoop s provider n rem calls reads att).routes.length = n := by
  intro rem
  induction rem with
  | zero =>
    intro calls reads att h
    simp [transmissionLoop] at h
  | succ m ih =>
    intro calls reads att h
    by_cases hA : (attemptOnce s provider calls n).success = true
    · simp [transmissionLoop, hA]
      exact attemptOnce_success_routes s provider calls n hA
    · have hb : (attemptOnce s provider calls n).success = false := by simpa using hA
      simp only [transmissionLoop, hb, Bool.false_eq_true, if_false] at h ⊢
      exact ih _ _ _ h

theorem collectRoutes_stops (provider : Nat → Option (List Nat)) :
    ∀ j n calls, j < n →
      (∀ i, i < j → provider (calls + i) ≠ none) →
      provider (calls + j) = none →
      (collectRoutes provider calls n).1.length = j ∧
      (collectRoutes provider calls n).2 = calls + j + 1 := by
  intro j
  induction j with
  | zero =>
    intro n calls hj hprev hnone
    match n, hj with
    | m + 1, _ =>
      rw [collectRoutes]
      simp only [Nat.add_zero] at hnone
      simp [hnone]
  | succ j ih =>
    intro n calls hj hprev hnone
    match n, hj with
    | m + 1, _ =>
      have h0 : provider calls ≠ none := by
        have := hprev 0 (Nat.succ_pos j)
        simpa using this
      obtain ⟨r, hr⟩ := Option.ne_none_iff_exists'.mp h0
      rw [collectRoutes]
      simp only [hr]
      have hprev' : ∀ i, i < j → provider (calls + 1 + i) ≠ none := by
        intro i hi
        have := hprev (i + 1) (by omega)
        have e : calls + (i + 1) = calls + 1 + i := by omega
        rwa [e] at this
      have hnone' : provider (calls + 1 + j) = none := by
        have e : calls + (j + 1) = calls + 1 + j := by omega
        rwa [e] at hnone
      have hm := ih m (calls + 1) (by omega) hprev' hnone'
      refine ⟨by simpa using hm.1, ?_⟩
      have h2 := hm.2
      omega

theorem request_transmission_success_eq (s : TransportState)
    (provider : Nat → Option (List Nat)) (a b n : Nat) :
    (request_transmission s provider a b n).success =
      (transmissionLoop s provider n 2 0 0 0).success := by
  by_cases hl : (transmissionLoop s provider n 2 0 0 0).success = true
  · simp [request_transmission, hl]
  · simp only [Bool.not_eq_true] at hl
    simp [request_transmission, hl]

theorem request_transmission_attempts_eq (s : TransportState)
    (provider : Nat → Option (List Nat)) (a b n : Nat) :
    (request_transmission s provider a b n).attempts =
      (transmissionLoop s provider n 2 0 0 0).attempts := by
  by_cases hl : (transmissionLoop s provider n 2 0 0 0).success = true
  · simp [request_transmission, hl]
  · simp only [Bool.not_eq_true] at hl
    simp [request_transmission, hl]

theorem request_transmission_state_of_failure (s : TransportState)
    (provider : Nat → Option (List Nat)) (a b n : Nat)
    (h : (request_transmission s provider a b n).success = false) :
    (request_transmission s provider a b n).state = s := by
  by_cases hl : (transmissionLoop s provider n 2 0 0 0).success = true
  · rw [request_transmission_success_eq] at h
    rw [hl] at h
    cases h
  · simp only [Bool.not_eq_true] at hl
    simp [request_transmission, hl]

/-!  Claim theorems. -/

/-- C9: in every state of the transport layer, `get_transmitted_qubits`
and `get_teleported_qubits` return the same underlying record sequence. -/
theorem C9_accessor_equivalence (s : TransportState) :
    get_transmitted_qubits s = get_teleported_qubits s :=
  rfl

/-- C10: a call to `request_transmission` with `num_qubits = 0` returns
true on the first attempt (the `attempts` counter is still 0), makes no
route-provider call, reads no EPR pool, and leaves the state — in
particular the ledger — unchanged. -/
theorem C10_zero_count (s : TransportState)
    (provider : Nat → Option (List Nat)) (alice_id bob_id : Nat) :
    (request_transmission s provider alice_id bob_id 0).success = true ∧
    (request_transmission s provider alice_id bob_id 0).attempts = 0 ∧
    (request_transmission s provider alice_id bob_id 0).providerCalls = 0 ∧
    (request_transmission s provider alice_id bob_id 0).poolReads = 0 ∧
    (request_transmission s provider alice_id bob_id 0).state = s := by
  simp [request_transmission, transmissionLoop, attemptOnce, collectRoutes,
    checkRoutes]

/-- C1: evaluation of the code at the failing input.  In state `s0` the
route `[0, 1]` is found and both endpoint memories hold one qubit each, so
the route and memory preconditions pass; no EPR pair exists on the route,
so the call returns false at the empty-fidelities check — but both popped
qubits are gone: the two memories held 2 qubits before the call and 0
after it, so a popped qubit is permanently lost on a failed outcome. -/
theorem C1_qubit_conservation_failing_input :
    (teleportation_protocol s0 (some [0, 1]) 0 0 1).1 = false ∧
    (s0.hosts 0).length + (s0.hosts 1).length = 2 ∧
    ((teleportation_protocol s0 (some [0, 1]) 0 0 1).2.hosts 0).length +
      ((teleportation_protocol s0 (some [0, 1]) 0 0 1).2.hosts 1).length = 0 := by
  decide

/-- C2: evaluation of the code at the failing input.  In state `s0` the
call fails on the no-EPR-fidelities precondition (`routeFidelities` along
the found route `[0, 1]` is empty) and returns false, yet the memory of
host 0 is not left as it was at the start of the call: the popped qubit
was not rolled back. -/
theorem C2_atomicity_failing_input :
    (teleportation_protocol s0 (some [0, 1]) 0 0 1).1 = false ∧
    routeFidelities s0 [0, 1] = [] ∧
    (teleportation_protocol s0 (some [0, 1]) 0 0 1).2.hosts 0 ≠ s0.hosts 0 := by
  decide

/-- C5 counterexample: with the route provider that returns no route on
every request but `num_qubits = 0`, `request_transmission` returns true
after 0 attempts, not false after exactly 2 attempts. -/
theorem C5_zero_qubits_cex :
    (request_transmission s0 noRoute 0 1 0).success = true ∧
    (request_transmission s0 noRoute 0 1 0).attempts = 0 := by
  decide

/-- C5 (amended): `request_transmission` performs at most 2 full batch
attempts — the failed-attempt counter never exceeds 2 and is at most 1
when the call succeeds — and for every call with at least one qubit
requested where the route provider returns no route on every request, the
call returns false after exactly 2 attempts. -/
theorem C5_retry_ceiling (s : TransportState)
    (provider : Nat → Option (List Nat)) (alice_id bob_id num_qubits : Nat) :
    (request_transmission s provider alice_id bob_id num_qubits).attempts ≤ 2 ∧
    ((request_transmission s provider alice_id bob_id num_qubits).success = true →
      (request_transmission s provider alice_id bob_id num_qubits).attempts ≤ 1) ∧
    ((∀ k, provider k = none) → 1 ≤ num_qubits →
      (request_transmission s provider alice_id bob_id num_qubits).success = false ∧
      (request_transmission s provider alice_id bob_id num_qubits).attempts = 2) := by
  have hA := transmissionLoop_attempts_le s provider num_qubits 2 0 0 0
  refine ⟨?_, ?_, ?_⟩
  · rw [request_transmission_attempts_eq]
    simpa using hA.1
  · intro hs
    rw [request_transmission_success_eq] at hs
    rw [request_transmission_attempts_eq]
    have := hA.2 hs
    omega
  · intro hnone hn
    obtain ⟨m, rfl⟩ : ∃ m, num_qubits = m + 1 := ⟨num_qubits - 1, by omega⟩
    rw [request_transmission_success_eq, request_transmission_attempts_eq]
    simp [transmissionLoop, attemptOnce, collectRoutes, hnone]

/-- C5 witness: for the always-failing provider and one qubit requested,
the call returns false after exactly 2 attempts. -/
theorem C5_retry_ceiling_witness :
    (request_transmission s0 noRoute 0 1 1).success = false ∧
    (request_transmission s0 noRoute 0 1 1).attempts = 2 :=
  (C5_retry_ceiling s0 noRoute 0 1 1).2.2 (fun _ => rfl) (by decide)

/-- C6: whenever the `j`-th route request of an attempt fails after `j`
successful ones, the attempt stops after `j + 1` provider calls with only
the `j` routes collected — the remaining routes are never requested — and
whenever the call returns false, the state (in particular the ledger) is
exactly the state at the start of the call, so zero records were
appended. -/
theorem C6_all_or_nothing (s : TransportState)
    (provider : Nat → Option (List Nat)) (alice_id bob_id num_qubits : Nat) :
    ((request_transmission s provider alice_id bob_id num_qubits).success = false →
      (request_transmission s provider alice_id bob_id num_qubits).state = s) ∧
    (∀ calls j, j < num_qubits →
      (∀ i, i < j → provider (calls + i) ≠ none) →
      provider (calls + j) = none →
      (collectRoutes provider calls num_qubits).1.length = j ∧
      (collectRoutes provider calls num_qubits).2 = calls + j + 1) := by
  refine ⟨request_transmission_state_of_failure s provider alice_id bob_id
    num_qubits, ?_⟩
  intro calls j hj hprev hnone
  exact collectRoutes_stops provider j num_qubits calls hj hprev hnone

/-- C6 witness: `num_qubits = 3` with a provider whose third request
fails — two valid routes are found, the attempt makes exactly 3 provider
calls, the call returns false and the ledger (the whole state) is
untouched. -/
theorem C6_all_or_nothing_witness :
    (request_transmission s0 twoThenFail 0 1 3).state = s0 ∧
    (collectRoutes twoThenFail 0 3).1.length = 2 ∧
    (collectRoutes twoThenFail 0 3).2 = 0 + 2 + 1 :=
  ⟨(C6_all_or_nothing s0 twoThenFail 0 1 3).1 (by decide),
   ((C6_all_or_nothing s0 twoThenFail 0 1 3).2 0 2 (by decide)
     (by intro i hi; interval_cases i <;> decide) (by decide)).1,
   ((C6_all_or_nothing s0 twoThenFail 0 1 3).2 0 2 (by decide)
     (by intro i hi; interval_cases i <;> decide) (by decide)).2⟩

/-- C7: `request_transmission` never changes any EPR pool or any host
memory; the ledger is unchanged when the call returns false, and on a
true return the only change is the append of one transmission record per
route. -/
theorem C7_feasibility_read_only (s : TransportState)
    (provider : Nat → Option (List Nat)) (alice_id bob_id num_qubits : Nat) :
    (∀ e, (request_transmission s provider alice_id bob_id num_qubits).state.eprs e =
      s.eprs e) ∧
    (∀ hid,
      (request_transmission s provider alice_id bob_id num_qubits).state.hosts hid =
        s.hosts hid) ∧
    ((request_transmission s provider alice_id bob_id num_qubits).success = false →
      (request_transmission s provider alice_id
        bob_id num_qubits).state.transmitted_qubits = s.transmitted_qubits) ∧
    ((request_transmission s provider alice_id bob_id num_qubits).success = true →
      ∃ routes : List (List Nat), routes.length = num_qubits ∧
        (request_transmission s provider alice_id
          bob_id num_qubits).state.transmitted_qubits =
          s.transmitted_qubits ++
            routes.map fun r => Record.transmission r alice_id bob_id) := by
  by_cases hl : (transmissionLoop s provider num_qubits 2 0 0 0).success = true
  · refine ⟨?_, ?_, ?_, ?_⟩
    · intro e; simp [request_transmission, hl]
    · intro hid; simp [request_transmission, hl]
    · intro h
      rw [request_transmission_success_eq, hl] at h
      cases h
    · intro _
      refine ⟨(transmissionLoop s provider num_qubits 2 0 0 0).routes,
        transmissionLoop_success_routes s provider num_qubits 2 0 0 0 hl, ?_⟩
      simp [request_transmission, hl]
  · have hf : (transmissionLoop s provider num_qubits 2 0 0 0).success = false := by
      simpa using hl
    refine ⟨?_, ?_, ?_, ?_⟩
    · intro e; simp [request_transmission, hf]
    · intro hid; simp [request_transmission, hf]
    · intro _; simp [request_transmission, hf]
    · intro h
      rw [request_transmission_success_eq, hf] at h
      cases h

/-- C7 witness: on an edge holding exactly one EPR pair, a passing
feasibility check leaves the pair in place, and the only change is the
append of one record per route. -/
theorem C7_feasibility_read_only_witness :
    (request_transmission s7 alwaysRoute 0 1 1).state.eprs (0, 1) = s7.eprs (0, 1) ∧
    (∃ routes : List (List Nat), routes.length = 1 ∧
      (request_transmission s7 alwaysRoute 0 1 1).state.transmitted_qubits =
        s7.transmitted_qubits ++ routes.map fun r => Record.transmission r 0 1) :=
  ⟨(C7_feasibility_read_only s7 alwaysRoute 0 1 1).1 (0, 1),
   (C7_feasibility_read_only s7 alwaysRoute 0 1 1).2.2.2 (by decide)⟩

/-- C3: for a teleportation attempt that reaches the outcome draw, the
returned outcome is true if and only if the draw is less than or equal
(inclusive) to
`f_source * f_dest * f_route + (1 - f_source) * (1 - f_dest) * (1 - f_route)`,
where `f_source` and `f_dest` are the fidelities of the front source
qubit and the back destination qubit, and `f_route` is the one global
arithmetic mean of the fidelities of all EPR pairs found across all hops
of the route. -/
theorem C3_success_probability (s : TransportState) (route : List Nat)
    (draw : ℚ) (alice_id bob_id : Nat) (hab : alice_id ≠ bob_id)
    (ha : s.hosts alice_id ≠ []) (hb : s.hosts bob_id ≠ [])
    (hf : routeFidelities s route ≠ []) :
    ((teleportation_protocol s (some route) draw alice_id bob_id).1 = true ↔
      draw ≤
        (s.hosts alice_id).headI.fidelity * (s.hosts bob_id).getLastI.fidelity *
            ((routeFidelities s route).sum / ((routeFidelities s route).length : ℚ)) +
          (1 - (s.hosts alice_id).headI.fidelity) *
            (1 - (s.hosts bob_id).getLastI.fidelity) *
            (1 - (routeFidelities s route).sum /
              ((routeFidelities s route).length : ℚ))) := by
  rw [teleportation_protocol_run s route draw alice_id bob_id hab ha hb hf]
  simp

/-- C3 witness: the theorem applied to a concrete one-hop attempt. -/
theorem C3_success_probability_witness :
    ((0 : Nat) ≠ 1 ∧ s4.hosts 0 ≠ [] ∧ s4.hosts 1 ≠ [] ∧
      routeFidelities s4 [0, 1] ≠ []) ∧
    ((teleportation_protocol s4 (some [0, 1]) 0 0 1).1 = true ↔
      (0 : ℚ) ≤
        (s4.hosts 0).headI.fidelity * (s4.hosts 1).getLastI.fidelity *
            ((routeFidelities s4 [0, 1]).sum /
              ((routeFidelities s4 [0, 1]).length : ℚ)) +
          (1 - (s4.hosts 0).headI.fidelity) * (1 - (s4.hosts 1).getLastI.fidelity) *
            (1 - (routeFidelities s4 [0, 1]).sum /
              ((routeFidelities s4 [0, 1]).length : ℚ))) :=
  ⟨⟨by decide, by decide, by decide, by decide⟩,
   C3_success_probability s4 [0, 1] 0 0 1 (by decide) (by decide) (by decide)
     (by decide)⟩

/-- C8: a teleportation attempt that passes its preconditions takes the
qubit at the front of the source memory and the qubit at the back of the
destination memory: on success the source memory loses its head and the
destination memory gains that head after losing its last element; on
failure the head of the source memory and the last element of the
destination memory are the two qubits appended back. -/
theorem C8_pop_order (s : TransportState) (route : List Nat) (draw : ℚ)
    (alice_id bob_id : Nat) (hab : alice_id ≠ bob_id)
    (ha : s.hosts alice_id ≠ []) (hb : s.hosts bob_id ≠ [])
    (hf : routeFidelities s route ≠ []) :
    ((teleportation_protocol s (some route) draw alice_id bob_id).1 = true →
      (teleportation_protocol s (some route) draw alice_id bob_id).2.hosts alice_id =
        (s.hosts alice_id).tail ∧
      (teleportation_protocol s (some route) draw alice_id bob_id).2.hosts bob_id =
        (s.hosts bob_id).dropLast ++ [(s.hosts alice_id).headI]) ∧
    ((teleportation_protocol s (some route) draw alice_id bob_id).1 = false →
      (teleportation_protocol s (some route) draw alice_id bob_id).2.hosts alice_id =
        (s.hosts alice_id).tail ++ [(s.hosts alice_id).headI] ∧
      (teleportation_protocol s (some route) draw alice_id bob_id).2.hosts bob_id =
        (s.hosts bob_id).dropLast ++ [(s.hosts bob_id).getLastI]) := by
  have hba : bob_id ≠ alice_id := Ne.symm hab
  rw [teleportation_protocol_run s route draw alice_id bob_id hab ha hb hf]
  by_cases hd : draw ≤
      (s.hosts alice_id).headI.fidelity * (s.hosts bob_id).getLastI.fidelity *
          ((routeFidelities s route).sum / ((routeFidelities s route).length : ℚ)) +
        (1 - (s.hosts alice_id).headI.fidelity) *
          (1 - (s.hosts bob_id).getLastI.fidelity) *
          (1 - (routeFidelities s route).sum /
            ((routeFidelities s route).length : ℚ))
  · constructor
    · intro _
      constructor
      · simp [hd, pushBack, Function.update_noteq hab, Function.update_noteq hba]
      · simp [hd, pushBack, Function.update_same, Function.update_noteq hba]
    · intro hcon
      simp [hd] at hcon
  · constructor
    · intro hcon
      simp [hd] at hcon
    · intro _
      constructor
      · simp [hd, pushBack, Function.update_same, Function.update_noteq hab,
          Function.update_noteq hba]
      · simp [hd, pushBack, Function.update_same, Function.update_noteq hba]

/-- C8 witness: the theorem applied to a concrete one-hop attempt. -/
theorem C8_pop_order_witness :
    ((0 : Nat) ≠ 1 ∧ s4.hosts 0 ≠ [] ∧ s4.hosts 1 ≠ [] ∧
      routeFidelities s4 [0, 1] ≠ []) ∧
    (((teleportation_protocol s4 (some [0, 1]) 0 0 1).1 = true →
      (teleportation_protocol s4 (some [0, 1]) 0 0 1).2.hosts 0 =
        (s4.hosts 0).tail ∧
      (teleportation_protocol s4 (some [0, 1]) 0 0 1).2.hosts 1 =
        (s4.hosts 1).dropLast ++ [(s4.hosts 0).headI]) ∧
    ((teleportation_protocol s4 (some [0, 1]) 0 0 1).1 = false →
      (teleportation_protocol s4 (some [0, 1]) 0 0 1).2.hosts 0 =
        (s4.hosts 0).tail ++ [(s4.hosts 0).headI] ∧
      (teleportation_protocol s4 (some [0, 1]) 0 0 1).2.hosts 1 =
        (s4.hosts 1).dropLast ++ [(s4.hosts 1).getLastI])) :=
  ⟨⟨by decide, by decide, by decide, by decide⟩,
   C8_pop_order s4 [0, 1] 0 0 1 (by decide) (by decide) (by decide) (by decide)⟩

/-- C4 counterexample: in state `s4` with route `[0, 1, 2]` the
preconditions pass (route found, both memories non-empty, fidelity list
non-empty thanks to the pair on hop `(0, 1)`), yet the pool of hop
`(1, 2)` is empty before the call and still empty after it — no pair was
removed from that hop, so fewer than `h` pairs are removed in total. -/
theorem C4_empty_hop_cex :
    (s4.hosts 0 ≠ [] ∧ s4.hosts 1 ≠ [] ∧ routeFidelities s4 [0, 1, 2] ≠ []) ∧
    (1, 2) ∈ hops [0, 1, 2] ∧
    s4.eprs (1, 2) = [] ∧
    (teleportation_protocol s4 (some [0, 1, 2]) 0 0 1).2.eprs (1, 2) = [] ∧
    (teleportation_protocol s4 (some [0, 1, 2]) 0 0 1).2.eprs (0, 1) = [] := by
  decide

/-- C4 (amended): for every teleportation attempt that passes the route,
memory and fidelity preconditions, over a route whose hop edges are
pairwise distinct and in which every hop pool is non-empty, exactly one
EPR pair is removed from each hop pool — `h` pairs total over `h` hops —
regardless of the outcome, and no other pool changes; a hop whose pool is
already empty loses no pair. -/
theorem C4_epr_consumption (s : TransportState) (route : List Nat)
    (draw : ℚ) (alice_id bob_id : Nat) (hab : alice_id ≠ bob_id)
    (ha : s.hosts alice_id ≠ []) (hb : s.hosts bob_id ≠ [])
    (hnd : (hops route).Nodup)
    (hpool : ∀ e ∈ hops route, s.eprs e ≠ [])
    (hf : routeFidelities s route ≠ []) :
    (∀ e ∈ hops route,
      ((teleportation_protocol s (some route) draw alice_id bob_id).2.eprs e).length
        + 1 = (s.eprs e).length) ∧
    (∀ e, e ∉ hops route →
      (teleportation_protocol s (some route) draw alice_id bob_id).2.eprs e =
        s.eprs e) := by
  rw [teleportation_protocol_run s route draw alice_id bob_id hab ha hb hf]
  constructor
  · intro e he
    show (removeEprPools s.eprs (hops route) e).length + 1 = (s.eprs e).length
    rw [removeEprPools_mem _ _ _ hnd he]
    have hne := hpool e he
    cases hse : s.eprs e with
    | nil => exact absurd hse hne
    | cons y ys => simp [hse]
  · intro e he
    show removeEprPools s.eprs (hops route) e = s.eprs e
    exact removeEprPools_not_mem _ _ _ he

/-- C4 witness: on a one-hop route whose pool holds one pair, the pool
length drops by exactly one. -/
theorem C4_epr_consumption_witness :
    (∀ e ∈ hops [0, 1], s4.eprs e ≠ []) ∧
    ((teleportation_protocol s4 (some [0, 1]) 0 0 1).2.eprs (0, 1)).length + 1 =
      (s4.eprs (0, 1)).length :=
  ⟨by decide,
   (C4_epr_consumption s4 [0, 1] 0 0 1 (by decide) (by decide) (by decide)
     (by decide) (by decide) (by decide)).1 (0, 1) (by decide)⟩

end QuantumNet
